import Mathlib

/-!
Verification of the bounded-time incremental poller in
`app_integrations/apps/app_base.py` (class `AppIntegration`).

The embedding models the lifecycle driven by `AppIntegration.gather`:
`_initialize` (concurrency guard, auth validation, mark running),
the main `while` loop calling `_gather` (which sleeps via `_sleep`,
runs the timed `do_gather` body, and returns the buffered cost
`exec_time * _POLL_BUFFER_MULTIPLIER`), and `_finalize`
(mark success, persist the final watermark).

State that lives in the AWS parameter store behind `AppConfig`
(run status, persisted `last_timestamp`) is the `Store` structure;
in-memory instance attributes of `AppIntegration` form `AppState`.
Subclass hooks (`_gather_logs`, `_sleep_seconds`) and the behaviour of
`Batcher.send_logs`, whose code is not part of the sources, are modelled
from the spec as an environment `Env` of per-cycle behaviours.
Each run produces a trace of observable events so that ordering
properties (delivery before persistence, throttling) can be stated.
-/

namespace StreamAlert

/-- Run status persisted in the parameter store for a job
(`AppConfig.is_running`, `mark_running`, `mark_success`). -/
inductive Status where
  | idle
  | running
  | succeeded
  | failed
deriving DecidableEq, Repr

/-- Durable state behind `AppConfig`: the run status and the persisted
resumption watermark (`last_timestamp`). -/
structure Store where
  status : Status
  last_timestamp : Int
deriving DecidableEq, Repr

/-- Result of one call to the subclass hook `_gather_logs`.
Modelled from the spec: `fetchNext` returns a sequence of records
(here their timestamps) together with the `moreAvailable` flag, or raises
an unrecoverable error.  The hook is also what sets `_more_to_poll` and
advances the in-memory `_last_timestamp`. -/
inductive FetchResult where
  | ok (records : List Int) (more : Bool)
  | err
deriving DecidableEq, Repr

/-- Behaviour of the k-th poll cycle: what the fetch hook does, whether
delivery through `Batcher.send_logs` succeeds, and the measured wall-clock
duration of the timed `do_gather` body.
Modelled from the spec: `Batcher` is not part of the sources; the spec
says the sink reports failure as a boolean, a non-fatal per-cycle event
that the core absorbs. The source discards the result of `send_logs`, so
`deliver_ok` only determines which delivery event the trace records. -/
structure CycleSpec where
  fetch : FetchResult
  deliver_ok : Bool
  duration : ℚ
deriving DecidableEq

/-- Environment of one run: per-cycle behaviours, the adapter throttle
interval `_sleep_seconds`, the freshly queried remaining execution time
`AppConfig.remaining_ms` (indexed by admission check number), and the
shape of the configuration used by `_validate_auth`. -/
structure Env where
  cycles : ℕ → CycleSpec
  sleep_seconds : ℚ
  remaining_ms : ℕ → ℚ
  config_nonempty : Bool
  has_auth : Bool
  auth_keys : Finset String
  required_auth_keys : Finset String

/-- In-memory attributes of an `AppIntegration` instance, together with
the handle on the durable store. -/
structure AppState where
  store : Store
  gathered_log_count : ℕ
  more_to_poll : Bool
  poll_count : ℕ
  last_timestamp : Int
  start_last_timestamp : Int
deriving DecidableEq, Repr

/-- Observable events of a run, in program order. -/
inductive Event where
  | slept (secs : ℚ)
  | fetched (k : ℕ)
  | delivered (count : ℕ)
  | deliver_failed (count : ℕ)
  | persisted (ts : Int)
  | marked_running
  | marked_success
  | final_persisted (ts : Int)
deriving DecidableEq

/-- Errors raised by `_validate_auth` (`AppIntegrationConfigError`). -/
inductive AuthError where
  | empty_config
  | missing_auth
  | missing_keys (keys : Finset String)
deriving DecidableEq

/-- Set of required keys absent from the supplied auth keys, the
`auth_key_diff` computed by `AppIntegration._validate_auth` via
`required_keys.difference(set(self._config['auth']))`. -/
def auth_key_diff (required supplied : Finset String) : Finset String :=
  required \ supplied

/-- Embedding of `AppIntegration._validate_auth`: empty config and missing
auth section raise; otherwise the run succeeds silently exactly when the
key difference is empty, and the raised error carries every missing key. -/
def validate_auth (env : Env) : Except AuthError Unit :=
  if env.config_nonempty = false then Except.error AuthError.empty_config
  else if env.has_auth = false then Except.error AuthError.missing_auth
  else if auth_key_diff env.required_auth_keys env.auth_keys = ∅ then Except.ok ()
  else Except.error (AuthError.missing_keys
    (auth_key_diff env.required_auth_keys env.auth_keys))

/-- Embedding of `AppIntegration._sleep`: no sleep while `_poll_count`
is zero, otherwise sleep for the adapter interval `_sleep_seconds`. -/
def sleep_events (env : Env) (s : AppState) : List Event :=
  if s.poll_count = 0 then [] else [Event.slept env.sleep_seconds]

/-- Modelled from the spec: the subclass `_gather_logs` hook advances the
in-memory watermark to the maximum timestamp implied by the new records,
which are fetched since the current watermark. With no records the
watermark is untouched. -/
def new_last_timestamp (current : Int) (records : List Int) : Int :=
  records.foldl max current

/-- Embedding of the timed `do_gather` body inside `AppIntegration._gather`:
fetch logs; on no logs return, leaving all persistent state untouched;
otherwise count the logs, call `send_logs` on the batcher, persist the
in-memory watermark to the store, and increment `_poll_count`. The result
of `send_logs` is discarded by the source, so the persist and the counter
update happen whether or not the sink reported success; the reported
outcome only selects the delivery event recorded in the trace. An error
result models an exception propagating out of the fetch hook. -/
def do_gather (env : Env) (k : ℕ) (s : AppState) :
    Except (AppState × List Event) (AppState × List Event) :=
  match (env.cycles k).fetch with
  | FetchResult.err => Except.error (s, [Event.fetched k])
  | FetchResult.ok records more =>
    let s1 : AppState :=
      { s with more_to_poll := more,
               last_timestamp := new_last_timestamp s.last_timestamp records }
    if records.isEmpty then
      Except.ok (s1, [Event.fetched k])
    else
      let s2 : AppState :=
        { s1 with gathered_log_count := s1.gathered_log_count + records.length }
      Except.ok
        ({ s2 with store := { s2.store with last_timestamp := s2.last_timestamp },
                   poll_count := s2.poll_count + 1 },
         [Event.fetched k,
          (if (env.cycles k).deliver_ok then Event.delivered records.length
           else Event.deliver_failed records.length),
          Event.persisted s2.last_timestamp])

/-- The `_POLL_BUFFER_MULTIPLIER = 1.2` class constant, as an exact
rational (the code uses `Decimal` precisely to keep the product exact). -/
def POLL_BUFFER_MULTIPLIER : ℚ := 6 / 5

/-- Embedding of `AppIntegration._gather`: throttle sleep, then the timed
body, returning the buffered cost `exec_time * _POLL_BUFFER_MULTIPLIER`. -/
def gather_one (env : Env) (k : ℕ) (s : AppState) :
    Except (AppState × List Event) (AppState × List Event × ℚ) :=
  match do_gather env k s with
  | Except.error (s1, evs1) => Except.error (s1, sleep_events env s ++ evs1)
  | Except.ok (s1, evs1) =>
    Except.ok (s1, sleep_events env s ++ evs1,
      (env.cycles k).duration * POLL_BUFFER_MULTIPLIER)

/-- Outcome of the main `while` loop of `AppIntegration.gather`: either the
loop exits normally or an exception from a cycle propagates. -/
inductive LoopResult where
  | done (s : AppState) (tr : List Event)
  | raised (s : AppState) (tr : List Event)
deriving DecidableEq

/-- Embedding of the `while` loop of `AppIntegration.gather`:
the condition evaluates a full `_gather` cycle first, adds the throttle
interval, and compares against the freshly queried remaining time; on
continuation the `_more_to_poll` flag is checked and consumed.
`fuel` bounds the number of iterations that can be unfolded. -/
def loop (env : Env) : ℕ → ℕ → AppState → List Event → Option LoopResult
  | 0, _, _, _ => none
  | fuel + 1, k, s, tr =>
    match gather_one env k s with
    | Except.error (s1, evs) => some (LoopResult.raised s1 (tr ++ evs))
    | Except.ok (s1, evs, cost) =>
      if cost + env.sleep_seconds < env.remaining_ms k / 1000 then
        if s1.more_to_poll then
          loop env fuel (k + 1) { s1 with more_to_poll := false } (tr ++ evs)
        else
          some (LoopResult.done s1 (tr ++ evs))
      else
        some (LoopResult.done s1 (tr ++ evs))

/-- Result of `AppIntegration._initialize`. -/
inductive InitResult where
  | not_started
  | config_err (e : AuthError)
  | started (s : AppState)
deriving DecidableEq

/-- Attributes set by `AppIntegration.__init__`. -/
def init_state (store : Store) : AppState :=
  { store := store, gathered_log_count := 0, more_to_poll := false,
    poll_count := 0, last_timestamp := 0, start_last_timestamp := 0 }

/-- Embedding of `AppIntegration._initialize`: the concurrency guard
returns a not-started signal when the stored status is already running;
then auth validation may raise; on success the watermark is loaded,
snapshotted as the start watermark, and the job is marked running. -/
def init_run (env : Env) (s : AppState) : InitResult :=
  if s.store.status = Status.running then InitResult.not_started
  else
    match validate_auth env with
    | Except.error e => InitResult.config_err e
    | Except.ok _ =>
      InitResult.started
        { s with last_timestamp := s.store.last_timestamp,
                 start_last_timestamp := s.store.last_timestamp,
                 store := { s.store with status := Status.running } }

/-- Embedding of `AppIntegration._finalize`: mark success, then persist the
in-memory watermark to the store. No failed status is ever written. -/
def final_run (s : AppState) : AppState × List Event :=
  ({ s with store := { s.store with status := Status.succeeded,
                                    last_timestamp := s.last_timestamp } },
   [Event.marked_success, Event.final_persisted s.last_timestamp])

/-- Outcome of the public entry point `AppIntegration.gather`. -/
inductive RunResult where
  | not_started (store : Store)
  | config_error (e : AuthError) (store : Store)
  | finished (s : AppState) (tr : List Event)
  | raised_error (s : AppState) (tr : List Event)
deriving DecidableEq

/-- Embedding of the public `AppIntegration.gather`: initialize; on the
guard return with no work; a validation error propagates; otherwise run
the loop and, when it exits normally, finalize. -/
def gather (env : Env) (fuel : ℕ) (store : Store) : Option RunResult :=
  match init_run env (init_state store) with
  | InitResult.not_started => some (RunResult.not_started store)
  | InitResult.config_err e => some (RunResult.config_error e store)
  | InitResult.started s1 =>
    match loop env fuel 0 s1 [Event.marked_running] with
    | none => none
    | some (LoopResult.raised s2 tr) => some (RunResult.raised_error s2 tr)
    | some (LoopResult.done s2 tr) =>
      some (RunResult.finished (final_run s2).1 (tr ++ (final_run s2).2))

/-- Event trace of a loop outcome. -/
def LoopResult.trace : LoopResult → List Event
  | LoopResult.done _ tr => tr
  | LoopResult.raised _ tr => tr

/-- In-memory final state of a loop outcome. -/
def LoopResult.state : LoopResult → AppState
  | LoopResult.done s _ => s
  | LoopResult.raised s _ => s

/-- Event trace of a run outcome. -/
def RunResult.trace : RunResult → List Event
  | RunResult.not_started _ => []
  | RunResult.config_error _ _ => []
  | RunResult.finished _ tr => tr
  | RunResult.raised_error _ tr => tr

/-- Durable store left behind by a run outcome. -/
def RunResult.final_store : RunResult → Store
  | RunResult.not_started st => st
  | RunResult.config_error _ st => st
  | RunResult.finished s _ => s.store
  | RunResult.raised_error s _ => s.store

/-- Event classifiers and counters over traces. -/
def is_slept : Event → Bool
  | Event.slept _ => true
  | _ => false

def is_fetched : Event → Bool
  | Event.fetched _ => true
  | _ => false

def is_delivered : Event → Bool
  | Event.delivered _ => true
  | _ => false

def is_deliver_failed : Event → Bool
  | Event.deliver_failed _ => true
  | _ => false

def is_persisted : Event → Bool
  | Event.persisted _ => true
  | _ => false

def is_marked_success : Event → Bool
  | Event.marked_success => true
  | _ => false

def count_slept (tr : List Event) : ℕ := tr.countP is_slept
def count_fetched (tr : List Event) : ℕ := tr.countP is_fetched
def count_delivered (tr : List Event) : ℕ := tr.countP is_delivered
def count_deliver_failed (tr : List Event) : ℕ := tr.countP is_deliver_failed
def count_persisted (tr : List Event) : ℕ := tr.countP is_persisted
def count_marked_success (tr : List Event) : ℕ := tr.countP is_marked_success

/-- Value carried by the last cycle-level persist event of a trace, the
initial persisted watermark when there is none. -/
def persist_step (acc : Int) (e : Event) : Int :=
  match e with
  | Event.persisted t => t
  | _ => acc

def last_persisted (w : Int) (tr : List Event) : Int :=
  tr.foldl persist_step w

/-- Adjacent-pair ordering relation: a store persist may only sit
immediately after the delivery call of its cycle, that is the event
recording the result `send_logs` reported (success or failure). -/
def persist_ok (a b : Event) : Prop :=
  is_persisted b = true → (is_delivered a = true ∨ is_deliver_failed a = true)

instance : DecidableRel persist_ok := fun a b => by
  unfold persist_ok; infer_instance

/-- Checks that every sleep event happens after at least one successful
(record-persisting) poll; the counter mirrors `_poll_count`. -/
def slept_after_persist_from (seen : ℕ) : List Event → Bool
  | [] => true
  | e :: rest =>
    match e with
    | Event.slept _ => (seen != 0) && slept_after_persist_from seen rest
    | Event.persisted _ => slept_after_persist_from (seen + 1) rest
    | _ => slept_after_persist_from seen rest

def slept_only_after_persist (tr : List Event) : Bool :=
  slept_after_persist_from 0 tr

end StreamAlert

namespace StreamAlert

lemma new_last_timestamp_cons (current a : Int) (l : List Int) :
    new_last_timestamp current (a :: l) = new_last_timestamp (max current a) l := rfl

lemma le_new_last_timestamp (current : Int) (records : List Int) :
    current ≤ new_last_timestamp current records := by
  induction records generalizing current with
  | nil => simp [new_last_timestamp]
  | cons a l ih =>
    calc current ≤ max current a := le_max_left _ _
    _ ≤ new_last_timestamp (max current a) l := ih _
    _ = new_last_timestamp current (a :: l) := (new_last_timestamp_cons _ _ _).symm

lemma last_persisted_append (w : Int) (l1 l2 : List Event) :
    last_persisted w (l1 ++ l2) = last_persisted (last_persisted w l1) l2 := by
  simp [last_persisted, List.foldl_append]

lemma last_persisted_of_all_not (l : List Event) :
    (∀ a ∈ l, is_persisted a = false) → ∀ w, last_persisted w l = w := by
  induction l with
  | nil => intro _ _; rfl
  | cons e rest ih =>
    intro h w
    have hstep : persist_step w e = w := by
      have he := h e (by simp)
      cases e <;> simp_all [is_persisted, persist_step]
    have hrw : last_persisted w (e :: rest) = last_persisted (persist_step w e) rest := rfl
    rw [hrw, hstep]
    exact ih (fun a ha => h a (by simp [ha])) w

lemma last_persisted_of_no_persist (w : Int) (l : List Event)
    (h : count_persisted l = 0) : last_persisted w l = w := by
  rw [count_persisted, List.countP_eq_zero] at h
  exact last_persisted_of_all_not l (fun a ha => by simpa using h a ha) w

lemma chain_append_safe (l1 l2 : List Event)
    (h1 : List.Chain' persist_ok l1) (h2 : List.Chain' persist_ok l2)
    (hhead : ∀ t, l2.head? ≠ some (Event.persisted t)) :
    List.Chain' persist_ok (l1 ++ l2) := by
  rw [List.chain'_append]
  refine ⟨h1, h2, ?_⟩
  intro x hx y hy
  intro hp
  exfalso
  cases y <;> simp [is_persisted] at hp
  exact hhead _ hy

lemma slept_after_persist_from_append (n : ℕ) (l1 l2 : List Event) :
    slept_after_persist_from n (l1 ++ l2) =
      (slept_after_persist_from n l1 &&
       slept_after_persist_from (n + count_persisted l1) l2) := by
  induction l1 generalizing n with
  | nil => simp [slept_after_persist_from, count_persisted]
  | cons e rest ih =>
    cases e <;>
      simp [slept_after_persist_from, count_persisted, List.countP_cons,
            is_persisted, ih, Bool.and_assoc, Nat.add_assoc, Nat.add_comm 1]

end StreamAlert

namespace StreamAlert

lemma gather_one_ok_facts (env : Env) (k : ℕ) (s s1 : AppState) (evs : List Event) (cost : ℚ)
    (h : gather_one env k s = Except.ok (s1, evs, cost)) :
    cost = (env.cycles k).duration * POLL_BUFFER_MULTIPLIER ∧
    s1.store.status = s.store.status ∧
    s1.store.last_timestamp = last_persisted s.store.last_timestamp evs ∧
    (s.last_timestamp = s.store.last_timestamp → s1.last_timestamp = s1.store.last_timestamp) ∧
    s.last_timestamp ≤ s1.last_timestamp ∧
    s.gathered_log_count ≤ s1.gathered_log_count ∧
    (s1.gathered_log_count = s.gathered_log_count → s1.last_timestamp = s.last_timestamp) ∧
    s1.poll_count = s.poll_count + count_persisted evs ∧
    s1.start_last_timestamp = s.start_last_timestamp ∧
    List.Chain' persist_ok evs ∧
    (∀ t, evs.head? ≠ some (Event.persisted t)) ∧
    slept_after_persist_from s.poll_count evs = true ∧
    count_fetched evs = 1 ∧
    count_marked_success evs = 0 := by
  cases hf : (env.cycles k).fetch with
  | err => simp [gather_one, do_gather, hf] at h
  | ok records more =>
    by_cases he : records.isEmpty
    · rw [List.isEmpty_iff] at he
      subst he
      simp only [gather_one, do_gather, hf, List.isEmpty_nil, if_true, Except.ok.injEq, Prod.mk.injEq] at h
      obtain ⟨h1, h2, h3⟩ := h
      subst h1 h2 h3
      by_cases hp : s.poll_count = 0 <;>
        simp [sleep_events, hp, last_persisted, persist_step, count_persisted,
              count_fetched, count_marked_success, List.countP_cons, is_persisted,
              is_fetched, is_marked_success, slept_after_persist_from, persist_ok,
              is_delivered, new_last_timestamp]
    · by_cases hd : (env.cycles k).deliver_ok
      · simp [gather_one, do_gather, hf, he, hd, Except.ok.injEq, Prod.mk.injEq] at h
        obtain ⟨h1, h2, h3⟩ := h
        subst h1 h2 h3
        refine ⟨rfl, rfl, ?_, ?_, ?_, ?_, ?_, ?_, rfl, ?_, ?_, ?_, ?_, ?_⟩
        · by_cases hp : s.poll_count = 0 <;>
            simp [sleep_events, hp, last_persisted, persist_step]
        · intro _; rfl
        · exact le_new_last_timestamp _ _
        · exact Nat.le_add_right _ _
        · intro hg
          exfalso
          have hsum : s.gathered_log_count + records.length = s.gathered_log_count := hg
          have hlen : records.length = 0 := by omega
          rw [List.length_eq_zero] at hlen
          subst hlen
          simp at he
        · by_cases hp : s.poll_count = 0 <;>
            simp [sleep_events, hp, count_persisted, List.countP_cons, is_persisted]
        · by_cases hp : s.poll_count = 0 <;>
            simp [sleep_events, hp, List.chain'_cons, persist_ok, is_persisted,
                  is_delivered, is_deliver_failed, List.chain'_singleton]
        · by_cases hp : s.poll_count = 0 <;> simp [sleep_events, hp]
        · by_cases hp : s.poll_count = 0 <;>
            simp [sleep_events, hp, slept_after_persist_from]
        · by_cases hp : s.poll_count = 0 <;>
            simp [sleep_events, hp, count_fetched, List.countP_cons, is_fetched]
        · by_cases hp : s.poll_count = 0 <;>
            simp [sleep_events, hp, count_marked_success, List.countP_cons,
                  is_marked_success]
      · simp [gather_one, do_gather, hf, he, hd, Except.ok.injEq, Prod.mk.injEq] at h
        obtain ⟨h1, h2, h3⟩ := h
        subst h1 h2 h3
        refine ⟨rfl, rfl, ?_, ?_, ?_, ?_, ?_, ?_, rfl, ?_, ?_, ?_, ?_, ?_⟩
        · by_cases hp : s.poll_count = 0 <;>
            simp [sleep_events, hp, last_persisted, persist_step]
        · intro _; rfl
        · exact le_new_last_timestamp _ _
        · exact Nat.le_add_right _ _
        · intro hg
          exfalso
          have hsum : s.gathered_log_count + records.length = s.gathered_log_count := hg
          have hlen : records.length = 0 := by omega
          rw [List.length_eq_zero] at hlen
          subst hlen
          simp at he
        · by_cases hp : s.poll_count = 0 <;>
            simp [sleep_events, hp, count_persisted, List.countP_cons, is_persisted]
        · by_cases hp : s.poll_count = 0 <;>
            simp [sleep_events, hp, List.chain'_cons, persist_ok, is_persisted,
                  is_delivered, is_deliver_failed, List.chain'_singleton]
        · by_cases hp : s.poll_count = 0 <;> simp [sleep_events, hp]
        · by_cases hp : s.poll_count = 0 <;>
            simp [sleep_events, hp, slept_after_persist_from]
        · by_cases hp : s.poll_count = 0 <;>
            simp [sleep_events, hp, count_fetched, List.countP_cons, is_fetched]
        · by_cases hp : s.poll_count = 0 <;>
            simp [sleep_events, hp, count_marked_success, List.countP_cons,
                  is_marked_success]

lemma gather_one_error_facts (env : Env) (k : ℕ) (s s1 : AppState) (evs : List Event)
    (h : gather_one env k s = Except.error (s1, evs)) :
    s1.store = s.store ∧
    count_persisted evs = 0 ∧
    List.Chain' persist_ok evs ∧
    (∀ t, evs.head? ≠ some (Event.persisted t)) ∧
    slept_after_persist_from s.poll_count evs = true ∧
    1 ≤ count_fetched evs ∧
    count_marked_success evs = 0 := by
  cases hf : (env.cycles k).fetch with
  | err =>
    simp [gather_one, do_gather, hf, Except.error.injEq, Prod.mk.injEq] at h
    obtain ⟨h1, h2⟩ := h
    subst h1 h2
    by_cases hp : s.poll_count = 0 <;>
      simp [sleep_events, hp, count_persisted, count_fetched, count_marked_success,
            List.countP_cons, is_persisted, is_fetched, is_marked_success,
            List.chain'_cons, persist_ok, is_delivered, slept_after_persist_from]
  | ok records more =>
    by_cases he : records.isEmpty
    · rw [List.isEmpty_iff] at he
      subst he
      simp [gather_one, do_gather, hf] at h
    · simp [gather_one, do_gather, hf, he] at h

end StreamAlert

namespace StreamAlert

/-- Invariant maintained by the main loop between iterations, relative to
the watermark `w0` and gathered count `g0` holding when the loop started. -/
structure LoopInv (w0 : Int) (g0 : ℕ) (s : AppState) (tr : List Event) : Prop where
  status_running : s.store.status = Status.running
  store_last : s.store.last_timestamp = last_persisted w0 tr
  mem_eq_store : s.last_timestamp = s.store.last_timestamp
  w0_le : w0 ≤ s.last_timestamp
  g0_le : g0 ≤ s.gathered_log_count
  no_gather_fixed : s.gathered_log_count = g0 → s.last_timestamp = w0
  poll_eq : s.poll_count = count_persisted tr
  chain : List.Chain' persist_ok tr
  slept_ok : slept_only_after_persist tr = true
  no_success_mark : count_marked_success tr = 0

/-- Facts holding for the state and trace of a loop that raised. -/
structure RaisedInv (w0 : Int) (s : AppState) (tr : List Event) : Prop where
  status_running : s.store.status = Status.running
  store_last : s.store.last_timestamp = last_persisted w0 tr
  w0_le : w0 ≤ s.store.last_timestamp
  chain : List.Chain' persist_ok tr
  slept_ok : slept_only_after_persist tr = true
  no_success_mark : count_marked_success tr = 0

lemma LoopInv.set_more {w0 : Int} {g0 : ℕ} {s : AppState} {tr : List Event}
    (h : LoopInv w0 g0 s tr) (b : Bool) :
    LoopInv w0 g0 { s with more_to_poll := b } tr :=
  ⟨h.status_running, h.store_last, h.mem_eq_store, h.w0_le, h.g0_le,
   h.no_gather_fixed, h.poll_eq, h.chain, h.slept_ok, h.no_success_mark⟩

lemma loop_trace_extends (env : Env) :
    ∀ (fuel k : ℕ) (s : AppState) (tr : List Event) (res : LoopResult),
      loop env fuel k s tr = some res → ∃ suf, res.trace = tr ++ suf := by
  intro fuel
  induction fuel with
  | zero => intro k s tr res h; simp [loop] at h
  | succ n ih =>
    intro k s tr res h
    simp only [loop] at h
    cases hg : gather_one env k s with
    | error p =>
      obtain ⟨s1, evs⟩ := p
      simp only [hg] at h
      obtain rfl := Option.some.inj h
      exact ⟨evs, rfl⟩
    | ok p =>
      obtain ⟨s1, evs, cost⟩ := p
      simp only [hg] at h
      split at h
      · split at h
        · obtain ⟨suf, hs⟩ := ih (k + 1) _ _ res h
          exact ⟨evs ++ suf, by simpa [List.append_assoc] using hs⟩
        · obtain rfl := Option.some.inj h
          exact ⟨evs, rfl⟩
      · obtain rfl := Option.some.inj h
        exact ⟨evs, rfl⟩

lemma cycle_preserves_inv (env : Env) (w0 : Int) (g0 : ℕ) (k : ℕ)
    (s s1 : AppState) (tr evs : List Event) (cost : ℚ)
    (hg : gather_one env k s = Except.ok (s1, evs, cost))
    (hinv : LoopInv w0 g0 s tr) : LoopInv w0 g0 s1 (tr ++ evs) := by
  obtain ⟨hc, hst, hlast, hmem, hle, hgle, hgim, hpoll, hstart, hchain, hhead,
          hslept, hfetch, hms⟩ := gather_one_ok_facts env k s s1 evs cost hg
  refine ⟨hst.trans hinv.status_running, ?_, hmem hinv.mem_eq_store, ?_, ?_, ?_, ?_, ?_, ?_, ?_⟩
  · rw [hlast, last_persisted_append, ← hinv.store_last]
  · exact le_trans hinv.w0_le hle
  · exact le_trans hinv.g0_le hgle
  · intro hg1
    have hseq : s.gathered_log_count = g0 :=
      le_antisymm (by rw [← hg1]; exact hgle) hinv.g0_le
    have : s1.gathered_log_count = s.gathered_log_count := by rw [hg1, hseq]
    rw [hgim this, hinv.no_gather_fixed hseq]
  · rw [hpoll, hinv.poll_eq, count_persisted, count_persisted, count_persisted,
        List.countP_append]
  · exact chain_append_safe tr evs hinv.chain hchain hhead
  · rw [slept_only_after_persist, slept_after_persist_from_append]
    have h1 : slept_after_persist_from 0 tr = true := hinv.slept_ok
    have h2 : slept_after_persist_from (0 + count_persisted tr) evs = true := by
      rw [Nat.zero_add, ← hinv.poll_eq]; exact hslept
    rw [h1, h2]; rfl
  · rw [count_marked_success, List.countP_append, ← count_marked_success,
        ← count_marked_success, hinv.no_success_mark, hms]

lemma cycle_error_raised (env : Env) (w0 : Int) (g0 : ℕ) (k : ℕ)
    (s s1 : AppState) (tr evs : List Event)
    (hg : gather_one env k s = Except.error (s1, evs))
    (hinv : LoopInv w0 g0 s tr) : RaisedInv w0 s1 (tr ++ evs) := by
  obtain ⟨hstore, hnp, hchain, hhead, hslept, hfetch, hms⟩ :=
    gather_one_error_facts env k s s1 evs hg
  refine ⟨?_, ?_, ?_, ?_, ?_, ?_⟩
  · rw [hstore]; exact hinv.status_running
  · rw [hstore, last_persisted_append, ← hinv.store_last,
        last_persisted_of_no_persist _ _ hnp]
  · rw [hstore, ← hinv.mem_eq_store]; exact hinv.w0_le
  · exact chain_append_safe tr evs hinv.chain hchain hhead
  · rw [slept_only_after_persist, slept_after_persist_from_append]
    have h1 : slept_after_persist_from 0 tr = true := hinv.slept_ok
    have h2 : slept_after_persist_from (0 + count_persisted tr) evs = true := by
      rw [Nat.zero_add, ← hinv.poll_eq]; exact hslept
    rw [h1, h2]; rfl
  · rw [count_marked_success, List.countP_append, ← count_marked_success,
        ← count_marked_success, hinv.no_success_mark, hms]

lemma loop_master (env : Env) (w0 : Int) (g0 : ℕ) :
    ∀ (fuel k : ℕ) (s : AppState) (tr : List Event) (res : LoopResult),
      loop env fuel k s tr = some res →
      LoopInv w0 g0 s tr →
      (∀ s2 tr2, res = LoopResult.done s2 tr2 → LoopInv w0 g0 s2 tr2) ∧
      (∀ s2 tr2, res = LoopResult.raised s2 tr2 → RaisedInv w0 s2 tr2) := by
  intro fuel
  induction fuel with
  | zero => intro k s tr res h _; simp [loop] at h
  | succ n ih =>
    intro k s tr res h hinv
    simp only [loop] at h
    cases hg : gather_one env k s with
    | error p =>
      obtain ⟨s1, evs⟩ := p
      simp only [hg] at h
      obtain rfl := Option.some.inj h
      constructor
      · intro s2 tr2 heq; cases heq
      · intro s2 tr2 heq
        obtain ⟨rfl, rfl⟩ : s1 = s2 ∧ tr ++ evs = tr2 := by
          cases heq; exact ⟨rfl, rfl⟩
        exact cycle_error_raised env w0 g0 k s _ _ _ hg hinv
    | ok p =>
      obtain ⟨s1, evs, cost⟩ := p
      simp only [hg] at h
      have hinv1 : LoopInv w0 g0 s1 (tr ++ evs) :=
        cycle_preserves_inv env w0 g0 k s s1 tr evs cost hg hinv
      split at h
      · split at h
        · exact ih (k + 1) _ _ res h (hinv1.set_more false)
        · obtain rfl := Option.some.inj h
          constructor
          · intro s2 tr2 heq
            obtain ⟨rfl, rfl⟩ : s1 = s2 ∧ tr ++ evs = tr2 := by
              cases heq; exact ⟨rfl, rfl⟩
            exact hinv1
          · intro s2 tr2 heq; cases heq
      · obtain rfl := Option.some.inj h
        constructor
        · intro s2 tr2 heq
          obtain ⟨rfl, rfl⟩ : s1 = s2 ∧ tr ++ evs = tr2 := by
            cases heq; exact ⟨rfl, rfl⟩
          exact hinv1
        · intro s2 tr2 heq; cases heq

end StreamAlert

namespace StreamAlert

/-- The state produced by a successful `_initialize` on store `st`. -/
def started_state (st : Store) : AppState :=
  { store := { status := Status.running, last_timestamp := st.last_timestamp },
    gathered_log_count := 0, more_to_poll := false, poll_count := 0,
    last_timestamp := st.last_timestamp, start_last_timestamp := st.last_timestamp }

lemma init_run_started_inv (env : Env) (st : Store) (s1 : AppState)
    (h : init_run env (init_state st) = InitResult.started s1) :
    st.status ≠ Status.running ∧ validate_auth env = Except.ok () ∧
      s1 = started_state st := by
  by_cases hr : st.status = Status.running
  · simp [init_run, init_state, hr] at h
  · cases hv : validate_auth env with
    | error e => simp [init_run, init_state, hr, hv] at h
    | ok u =>
      simp only [init_run, init_state, hr, if_false, hv] at h
      refine ⟨hr, rfl, ?_⟩
      cases h
      rfl

lemma init_run_of_running (env : Env) (st : Store) (hr : st.status = Status.running) :
    init_run env (init_state st) = InitResult.not_started := by
  simp [init_run, init_state, hr]

lemma init_run_of_bad_auth (env : Env) (st : Store) (e : AuthError)
    (hr : st.status ≠ Status.running) (hv : validate_auth env = Except.error e) :
    init_run env (init_state st) = InitResult.config_err e := by
  simp [init_run, init_state, hr, hv]

lemma started_state_inv (st : Store) :
    LoopInv st.last_timestamp 0 (started_state st) [Event.marked_running] := by
  refine ⟨rfl, rfl, rfl, le_refl _, Nat.zero_le _, fun _ => rfl, rfl, ?_, rfl, rfl⟩
  exact List.chain'_singleton _

lemma gather_finished_master (env : Env) (fuel : ℕ) (st : Store) (s : AppState)
    (tr : List Event) (h : gather env fuel st = some (RunResult.finished s tr)) :
    ∃ s2 tr2, LoopInv st.last_timestamp 0 s2 tr2 ∧
      s = (final_run s2).1 ∧ tr = tr2 ++ (final_run s2).2 ∧
      st.status ≠ Status.running ∧ validate_auth env = Except.ok () ∧
      ∃ suf, tr2 = Event.marked_running :: suf := by
  cases hi : init_run env (init_state st) with
  | not_started => simp [gather, hi] at h
  | config_err e => simp [gather, hi] at h
  | started s1 =>
    obtain ⟨hr, hv, rfl⟩ := init_run_started_inv env st s1 hi
    simp only [gather, hi] at h
    cases hl : loop env fuel 0 (started_state st) [Event.marked_running] with
    | none => simp [hl] at h
    | some res =>
      cases res with
      | raised s2 tr2 => simp [hl] at h
      | done s2 tr2 =>
        simp only [hl, Option.some.injEq, RunResult.finished.injEq] at h
        obtain ⟨rfl, rfl⟩ := h
        have hm := loop_master env st.last_timestamp 0 fuel 0 (started_state st)
          [Event.marked_running] (LoopResult.done s2 tr2) hl (started_state_inv st)
        obtain ⟨suf, hsuf⟩ := loop_trace_extends env fuel 0 (started_state st)
          [Event.marked_running] (LoopResult.done s2 tr2) hl
        exact ⟨s2, tr2, hm.1 s2 tr2 rfl, rfl, rfl, hr, hv, suf, hsuf⟩

lemma gather_raised_master (env : Env) (fuel : ℕ) (st : Store) (s : AppState)
    (tr : List Event) (h : gather env fuel st = some (RunResult.raised_error s tr)) :
    RaisedInv st.last_timestamp s tr ∧
      st.status ≠ Status.running ∧ validate_auth env = Except.ok () ∧
      ∃ suf, tr = Event.marked_running :: suf := by
  cases hi : init_run env (init_state st) with
  | not_started => simp [gather, hi] at h
  | config_err e => simp [gather, hi] at h
  | started s1 =>
    obtain ⟨hr, hv, rfl⟩ := init_run_started_inv env st s1 hi
    simp only [gather, hi] at h
    cases hl : loop env fuel 0 (started_state st) [Event.marked_running] with
    | none => simp [hl] at h
    | some res =>
      cases res with
      | done s2 tr2 => simp [hl] at h
      | raised s2 tr2 =>
        simp only [hl, Option.some.injEq, RunResult.raised_error.injEq] at h
        obtain ⟨rfl, rfl⟩ := h
        have hm := loop_master env st.last_timestamp 0 fuel 0 (started_state st)
          [Event.marked_running] (LoopResult.raised s2 tr2) hl (started_state_inv st)
        obtain ⟨suf, hsuf⟩ := loop_trace_extends env fuel 0 (started_state st)
          [Event.marked_running] (LoopResult.raised s2 tr2) hl
        exact ⟨hm.2 s2 tr2 rfl, hr, hv, suf, hsuf⟩

lemma gather_of_running (env : Env) (fuel : ℕ) (st : Store)
    (hr : st.status = Status.running) :
    gather env fuel st = some (RunResult.not_started st) := by
  simp [gather, init_run_of_running env st hr]

lemma gather_of_bad_auth (env : Env) (fuel : ℕ) (st : Store) (e : AuthError)
    (hr : st.status ≠ Status.running) (hv : validate_auth env = Except.error e) :
    gather env fuel st = some (RunResult.config_error e st) := by
  simp [gather, init_run_of_bad_auth env st e hr hv]

end StreamAlert

namespace StreamAlert

lemma init_run_started_eq (env : Env) (st : Store)
    (hr : st.status ≠ Status.running) (hv : validate_auth env = Except.ok ()) :
    init_run env (init_state st) = InitResult.started (started_state st) := by
  simp [init_run, init_state, hr, hv, started_state]

lemma init_run_not_started_inv (env : Env) (st : Store)
    (h : init_run env (init_state st) = InitResult.not_started) :
    st.status = Status.running := by
  by_cases hr : st.status = Status.running
  · exact hr
  · exfalso
    cases hv : validate_auth env with
    | error e => rw [init_run_of_bad_auth env st e hr hv] at h; cases h
    | ok u =>
      rw [init_run_started_eq env st hr (by rw [hv])] at h
      cases h

lemma init_run_config_inv (env : Env) (st : Store) (e : AuthError)
    (h : init_run env (init_state st) = InitResult.config_err e) :
    st.status ≠ Status.running ∧ validate_auth env = Except.error e := by
  by_cases hr : st.status = Status.running
  · rw [init_run_of_running env st hr] at h; cases h
  · cases hv : validate_auth env with
    | error e2 =>
      rw [init_run_of_bad_auth env st e2 hr hv] at h
      cases h
      exact ⟨hr, rfl⟩
    | ok u =>
      rw [init_run_started_eq env st hr (by rw [hv])] at h
      cases h

lemma gather_not_started_inv (env : Env) (fuel : ℕ) (st st2 : Store)
    (h : gather env fuel st = some (RunResult.not_started st2)) :
    st2 = st ∧ st.status = Status.running := by
  cases hi : init_run env (init_state st) with
  | not_started =>
    simp only [gather, hi, Option.some.injEq, RunResult.not_started.injEq] at h
    exact ⟨h.symm, init_run_not_started_inv env st hi⟩
  | config_err e => simp [gather, hi] at h
  | started s1 =>
    simp only [gather, hi] at h
    cases hl : loop env fuel 0 s1 [Event.marked_running] with
    | none => simp [hl] at h
    | some res => cases res <;> simp [hl] at h

lemma gather_config_error_inv (env : Env) (fuel : ℕ) (st st2 : Store) (e : AuthError)
    (h : gather env fuel st = some (RunResult.config_error e st2)) :
    st2 = st ∧ st.status ≠ Status.running ∧ validate_auth env = Except.error e := by
  cases hi : init_run env (init_state st) with
  | not_started => simp [gather, hi] at h
  | config_err e2 =>
    simp only [gather, hi, Option.some.injEq, RunResult.config_error.injEq] at h
    obtain ⟨rfl, rfl⟩ : e2 = e ∧ st = st2 := h
    obtain ⟨hr, hv⟩ := init_run_config_inv env st e2 hi
    exact ⟨rfl, hr, hv⟩
  | started s1 =>
    simp only [gather, hi] at h
    cases hl : loop env fuel 0 s1 [Event.marked_running] with
    | none => simp [hl] at h
    | some res => cases res <;> simp [hl] at h

lemma loop_first_cycle (env : Env) (fuel k : ℕ) (s : AppState) (tr : List Event)
    (res : LoopResult) (h : loop env (fuel + 1) k s tr = some res) :
    (∃ s1 evs cost suf, gather_one env k s = Except.ok (s1, evs, cost) ∧
        res.trace = (tr ++ evs) ++ suf) ∨
    (∃ s1 evs, gather_one env k s = Except.error (s1, evs) ∧ res.trace = tr ++ evs) := by
  simp only [loop] at h
  cases hg : gather_one env k s with
  | error p =>
    obtain ⟨s1, evs⟩ := p
    simp only [hg] at h
    obtain rfl := Option.some.inj h
    exact Or.inr ⟨s1, evs, rfl, rfl⟩
  | ok p =>
    obtain ⟨s1, evs, cost⟩ := p
    simp only [hg] at h
    split at h
    · split at h
      · obtain ⟨suf, hsuf⟩ := loop_trace_extends env fuel (k + 1) _ _ res h
        exact Or.inl ⟨s1, evs, cost, suf, rfl, hsuf⟩
      · obtain rfl := Option.some.inj h
        exact Or.inl ⟨s1, evs, cost, [], rfl, (List.append_nil _).symm⟩
    · obtain rfl := Option.some.inj h
      exact Or.inl ⟨s1, evs, cost, [], rfl, (List.append_nil _).symm⟩

lemma gather_trace_decomp (env : Env) (fuel : ℕ) (st : Store) (r : RunResult)
    (hr : st.status ≠ Status.running) (hv : validate_auth env = Except.ok ())
    (h : gather env fuel st = some r) :
    ∃ res rest, loop env fuel 0 (started_state st) [Event.marked_running] = some res ∧
      r.trace = res.trace ++ rest := by
  simp only [gather, init_run_started_eq env st hr hv] at h
  cases hl : loop env fuel 0 (started_state st) [Event.marked_running] with
  | none => simp only [hl] at h; cases h
  | some res =>
    simp only [hl] at h
    cases res with
    | done s2 tr2 =>
      obtain rfl := Option.some.inj h
      exact ⟨LoopResult.done s2 tr2, (final_run s2).2, rfl, rfl⟩
    | raised s2 tr2 =>
      obtain rfl := Option.some.inj h
      exact ⟨LoopResult.raised s2 tr2, [], rfl, (List.append_nil _).symm⟩

lemma gather_one_more_eq (env : Env) (k : ℕ) (s s1 : AppState) (evs : List Event)
    (cost : ℚ) (records : List Int) (more : Bool)
    (hg : gather_one env k s = Except.ok (s1, evs, cost))
    (hf : (env.cycles k).fetch = FetchResult.ok records more) :
    s1.more_to_poll = more := by
  by_cases he : records.isEmpty
  · rw [List.isEmpty_iff] at he
    subst he
    simp only [gather_one, do_gather, hf, List.isEmpty_nil, if_true,
               Except.ok.injEq, Prod.mk.injEq] at hg
    obtain ⟨h1, h2, h3⟩ := hg
    subst h1
    rfl
  · simp [gather_one, do_gather, hf, he, Except.ok.injEq, Prod.mk.injEq] at hg
    obtain ⟨h1, h2, h3⟩ := hg
    subst h1
    rfl

lemma gather_one_no_error_of_deliver (env : Env) (k : ℕ) (s : AppState)
    (records : List Int) (more : Bool) (p : AppState × List Event)
    (hf : (env.cycles k).fetch = FetchResult.ok records more)
    (hne : ¬ records.isEmpty = true) (hd : (env.cycles k).deliver_ok = true)
    (h : gather_one env k s = Except.error p) : False := by
  obtain ⟨s1, evs⟩ := p
  simp [gather_one, do_gather, hf, hne, hd] at h

lemma gather_one_delivered_counts (env : Env) (k : ℕ) (s s1 : AppState)
    (evs : List Event) (cost : ℚ) (records : List Int) (more : Bool)
    (hg : gather_one env k s = Except.ok (s1, evs, cost))
    (hf : (env.cycles k).fetch = FetchResult.ok records more)
    (hne : ¬ records.isEmpty = true) (hd : (env.cycles k).deliver_ok = true) :
    count_delivered evs = 1 ∧ count_persisted evs = 1 := by
  simp [gather_one, do_gather, hf, hne, hd, Except.ok.injEq, Prod.mk.injEq] at hg
  obtain ⟨h1, h2, h3⟩ := hg
  subst h2
  constructor
  · by_cases hp : s.poll_count = 0 <;>
      simp [sleep_events, hp, count_delivered, List.countP_cons, is_delivered]
  · by_cases hp : s.poll_count = 0 <;>
      simp [sleep_events, hp, count_persisted, List.countP_cons, is_persisted]

end StreamAlert

namespace StreamAlert

/-- The admission-control estimator as the spec states it (section 4.2),
written separately so it can be compared with what the code computes:
projected cost of the next cycle is measured duration times safety
multiplier plus the next throttle interval. -/
def spec_projected_cost (d m t : ℚ) : ℚ := d * m + t

/-- Claim C1 amended: for every poll cycle, the store watermark write
happens only strictly after the delivery call for that cycle (in every
run trace a persist event sits immediately after the delivery event of
its cycle, successful or failed, and never first), a raising cycle or an
empty fetch leaves the durable store untouched, and the final persisted
watermark of any run is the value recorded at the last persist; however
the source never inspects the result of `send_logs`: a cycle that fetched
records persists the new watermark whether or not the sink reported
success, so a failed batch still advances the persisted watermark. -/
theorem watermark_persisted_after_delivery_attempt :
    (∀ (env : Env) (fuel : ℕ) (st : Store) (r : RunResult),
        gather env fuel st = some r →
        List.Chain' persist_ok r.trace ∧
        (∀ t, r.trace.head? ≠ some (Event.persisted t))) ∧
    (∀ (env : Env) (k : ℕ) (s s1 : AppState) (evs : List Event),
        gather_one env k s = Except.error (s1, evs) → s1.store = s.store) ∧
    (∀ (env : Env) (k : ℕ) (s s1 : AppState) (evs : List Event) (cost : ℚ)
        (records : List Int) (more : Bool),
        gather_one env k s = Except.ok (s1, evs, cost) →
        (env.cycles k).fetch = FetchResult.ok records more →
        (records = [] → s1.store = s.store) ∧
        (records ≠ [] →
          s1.store.last_timestamp = new_last_timestamp s.last_timestamp records ∧
          count_persisted evs = 1)) ∧
    (∀ (env : Env) (fuel : ℕ) (st : Store) (r : RunResult),
        gather env fuel st = some r →
        r.final_store.last_timestamp = last_persisted st.last_timestamp r.trace) := by
  refine ⟨?_, ?_, ?_, ?_⟩
  · intro env fuel st r h
    cases r with
    | not_started st2 =>
      exact ⟨List.chain'_nil, by simp [RunResult.trace]⟩
    | config_error e st2 =>
      exact ⟨List.chain'_nil, by simp [RunResult.trace]⟩
    | finished s tr =>
      obtain ⟨s2, tr2, hinv, hs, htr, hr, hv, suf, hsuf⟩ :=
        gather_finished_master env fuel st s tr h
      subst htr
      constructor
      · refine chain_append_safe _ _ hinv.chain ?_ ?_
        · refine List.chain'_cons.mpr ⟨?_, List.chain'_singleton _⟩
          intro hps
          simp [is_persisted] at hps
        · intro t ht
          simp [final_run] at ht
      · intro t
        subst hsuf
        simp [RunResult.trace]
    | raised_error s tr =>
      obtain ⟨hri, hr, hv, suf, hsuf⟩ := gather_raised_master env fuel st s tr h
      refine ⟨hri.chain, ?_⟩
      intro t
      subst hsuf
      simp [RunResult.trace]
  · intro env k s s1 evs h
    exact (gather_one_error_facts env k s s1 evs h).1
  · intro env k s s1 evs cost records more hg hf
    constructor
    · intro hemp
      subst hemp
      simp only [gather_one, do_gather, hf, List.isEmpty_nil, if_true,
                 Except.ok.injEq, Prod.mk.injEq] at hg
      obtain ⟨h1, h2, h3⟩ := hg
      subst h1
      rfl
    · intro hne
      have hneb : ¬ records.isEmpty = true := fun hof => hne (List.isEmpty_iff.mp hof)
      simp [gather_one, do_gather, hf, hneb, Except.ok.injEq, Prod.mk.injEq] at hg
      obtain ⟨h1, h2, h3⟩ := hg
      subst h1 h2
      refine ⟨rfl, ?_⟩
      by_cases hd : (env.cycles k).deliver_ok <;> by_cases hp : s.poll_count = 0 <;>
        simp [sleep_events, hp, hd, count_persisted, List.countP_cons, is_persisted]
  · intro env fuel st r h
    cases r with
    | not_started st2 =>
      obtain ⟨rfl, _⟩ := gather_not_started_inv env fuel st st2 h
      rfl
    | config_error e st2 =>
      obtain ⟨rfl, _, _⟩ := gather_config_error_inv env fuel st st2 e h
      rfl
    | finished s tr =>
      obtain ⟨s2, tr2, hinv, hs, htr, hr, hv, suf, hsuf⟩ :=
        gather_finished_master env fuel st s tr h
      subst hs htr
      show (final_run s2).1.store.last_timestamp =
        last_persisted st.last_timestamp (tr2 ++ (final_run s2).2)
      rw [last_persisted_append]
      have h2 : last_persisted (last_persisted st.last_timestamp tr2)
          (final_run s2).2 = last_persisted st.last_timestamp tr2 := rfl
      rw [h2, ← hinv.store_last]
      exact hinv.mem_eq_store
    | raised_error s tr =>
      obtain ⟨hri, _, _, _⟩ := gather_raised_master env fuel st s tr h
      exact hri.store_last

/-- Claim C2: for a job whose stored status is already RUNNING, the public run
entry point returns the not-started outcome with the store unchanged, an
empty trace (zero fetch and zero deliver operations) and no raised error. -/
theorem running_guard_no_work :
    ∀ (env : Env) (fuel : ℕ) (st : Store), st.status = Status.running →
      gather env fuel st = some (RunResult.not_started st) ∧
      (RunResult.not_started st).final_store = st ∧
      (RunResult.not_started st).trace = [] ∧
      count_fetched (RunResult.not_started st).trace = 0 ∧
      count_delivered (RunResult.not_started st).trace = 0 := by
  intro env fuel st hr
  exact ⟨gather_of_running env fuel st hr, rfl, rfl, rfl, rfl⟩

/-- Claim C3: the projected cost of the next cycle computed by the loop condition
is the measured duration times the 1.2 safety multiplier plus the throttle
interval; at duration 0.01 and interval 5 it is exactly 5.012; and whenever
the projected cost is not strictly below the remaining budget, the loop
finishes the current results without starting any further cycle. -/
theorem admission_control_estimator :
    POLL_BUFFER_MULTIPLIER = 12 / 10 ∧
    (∀ (env : Env) (k : ℕ) (s s1 : AppState) (evs : List Event) (cost : ℚ),
        gather_one env k s = Except.ok (s1, evs, cost) →
        cost + env.sleep_seconds =
          spec_projected_cost (env.cycles k).duration POLL_BUFFER_MULTIPLIER
            env.sleep_seconds) ∧
    spec_projected_cost (1 / 100) POLL_BUFFER_MULTIPLIER 5 = 5012 / 1000 ∧
    (∀ (env : Env) (fuel k : ℕ) (s s1 : AppState) (tr evs : List Event) (cost : ℚ),
        gather_one env k s = Except.ok (s1, evs, cost) →
        ¬(spec_projected_cost (env.cycles k).duration POLL_BUFFER_MULTIPLIER
            env.sleep_seconds < env.remaining_ms k / 1000) →
        loop env (fuel + 1) k s tr = some (LoopResult.done s1 (tr ++ evs))) := by
  refine ⟨by norm_num [POLL_BUFFER_MULTIPLIER], ?_, by norm_num [spec_projected_cost, POLL_BUFFER_MULTIPLIER], ?_⟩
  · intro env k s s1 evs cost hg
    rw [(gather_one_ok_facts env k s s1 evs cost hg).1, spec_projected_cost]
  · intro env fuel k s s1 tr evs cost hg hstop
    have hcost := (gather_one_ok_facts env k s s1 evs cost hg).1
    have hnc : ¬(cost + env.sleep_seconds < env.remaining_ms k / 1000) := by
      rw [hcost]
      simpa [spec_projected_cost] using hstop
    simp [loop, hg, hnc]

end StreamAlert

namespace StreamAlert

/-- A cycle that fetches nothing and would deliver successfully. -/
def base_cycle : CycleSpec :=
  { fetch := FetchResult.ok [] false, deliver_ok := true, duration := 0 }

/-- A minimal valid environment used to build concrete scenarios. -/
def base_env : Env :=
  { cycles := fun _ => base_cycle, sleep_seconds := 0, remaining_ms := fun _ => 0,
    config_nonempty := true, has_auth := true,
    auth_keys := ∅, required_auth_keys := ∅ }

/-- Environment whose only cycle raises an unrecoverable fetch error. -/
def err_cycle_env : Env :=
  { base_env with
    cycles := fun _ => { fetch := FetchResult.err, deliver_ok := true, duration := 0 } }

lemma idle_ne_running : ¬(Status.idle = Status.running) := by decide

/-- Claim C4 counterexample: with a cycle raising an unrecoverable error, the run
ends in the raised outcome with the stored status still RUNNING, the
success mark never written, and in particular no FAILED status: finalize
is not invoked after an unrecoverable iteration error, contradicting the
claim that it always runs and then writes FAILED. -/
theorem finalize_always_runs_counterexample :
    (gather err_cycle_env 5 { status := Status.idle, last_timestamp := 42 }).map
        (fun r => r.final_store.status) = some Status.running ∧
    (gather err_cycle_env 5 { status := Status.idle, last_timestamp := 42 }).map
        (fun r => count_marked_success r.trace) = some 0 ∧
    Status.running ≠ Status.failed := by
  refine ⟨by decide, by decide, by decide⟩

/-- Claim C4 amended: when initialize() started the run and no iteration raised,
finalize() runs (even with zero successful polls), writing SUCCEEDED and
the final watermark; when an iteration raises an unrecoverable error the
exception propagates, finalize() is not reached and the status stays
RUNNING; FAILED is never written by a run. -/
theorem finalize_semantics :
    (∀ (env : Env) (fuel : ℕ) (st : Store) (s : AppState) (tr : List Event),
        gather env fuel st = some (RunResult.finished s tr) →
        s.store.status = Status.succeeded ∧
        s.store.last_timestamp = s.last_timestamp ∧
        count_marked_success tr = 1) ∧
    (∀ (env : Env) (fuel : ℕ) (st : Store) (s : AppState) (tr : List Event),
        gather env fuel st = some (RunResult.raised_error s tr) →
        s.store.status = Status.running ∧ count_marked_success tr = 0) ∧
    (∀ (env : Env) (fuel : ℕ) (st : Store) (r : RunResult),
        st.status ≠ Status.failed → gather env fuel st = some r →
        r.final_store.status ≠ Status.failed) := by
  refine ⟨?_, ?_, ?_⟩
  · intro env fuel st s tr h
    obtain ⟨s2, tr2, hinv, hs, htr, hr, hv, suf, hsuf⟩ :=
      gather_finished_master env fuel st s tr h
    subst hs htr
    refine ⟨rfl, rfl, ?_⟩
    rw [count_marked_success, List.countP_append, ← count_marked_success,
        ← count_marked_success, hinv.no_success_mark]
    rfl
  · intro env fuel st s tr h
    obtain ⟨hri, _, _, _⟩ := gather_raised_master env fuel st s tr h
    exact ⟨hri.status_running, hri.no_success_mark⟩
  · intro env fuel st r hnf h
    cases r with
    | not_started st2 =>
      obtain ⟨rfl, hrun⟩ := gather_not_started_inv env fuel st st2 h
      exact hnf
    | config_error e st2 =>
      obtain ⟨rfl, _, _⟩ := gather_config_error_inv env fuel st st2 e h
      exact hnf
    | finished s tr =>
      obtain ⟨s2, tr2, hinv, hs, htr, _, _, _, _⟩ :=
        gather_finished_master env fuel st s tr h
      subst hs
      intro hc
      cases hc
    | raised_error s tr =>
      obtain ⟨hri, _, _, _⟩ := gather_raised_master env fuel st s tr h
      rw [RunResult.final_store, hri.status_running]
      intro hc
      cases hc

/-- Environment whose auth config is missing the one required key. -/
def missing_key_env : Env :=
  { base_env with required_auth_keys := {"api_key"} }

/-- Claim C5 counterexample: a run on an idle job with invalid credentials
propagates the configuration error, but the stored status is left idle,
not RUNNING: validation happens before the job is marked running. -/
theorem config_error_leaves_running_counterexample :
    gather missing_key_env 5 { status := Status.idle, last_timestamp := 7 } =
      some (RunResult.config_error (AuthError.missing_keys {"api_key"})
        { status := Status.idle, last_timestamp := 7 }) ∧
    (RunResult.config_error (AuthError.missing_keys {"api_key"})
        { status := Status.idle, last_timestamp := 7 }).final_store.status ≠
      Status.running := by
  refine ⟨by decide, by decide⟩

/-- Claim C5 amended: a validation failure during initialize() propagates the
configuration error to the caller, finalize() is not reached (no success
mark, empty trace), and the durable store is left exactly as it was; in
particular the job is not marked RUNNING, since validation precedes
mark_running, and it can only already be RUNNING if the guard fired first,
in which case validation is never reached. -/
theorem config_error_propagation :
    ∀ (env : Env) (fuel : ℕ) (st : Store) (e : AuthError),
      st.status ≠ Status.running →
      validate_auth env = Except.error e →
      gather env fuel st = some (RunResult.config_error e st) ∧
      (RunResult.config_error e st).final_store = st ∧
      (RunResult.config_error e st).trace = [] ∧
      count_marked_success (RunResult.config_error e st).trace = 0 := by
  intro env fuel st e hr hv
  exact ⟨gather_of_bad_auth env fuel st e hr hv, rfl, rfl, rfl⟩

/-- Claim C6: every run that completes successfully has a final persisted
watermark at least the starting watermark, and equal to it when no
records were gathered. -/
theorem watermark_monotone_on_success :
    ∀ (env : Env) (fuel : ℕ) (st : Store) (s : AppState) (tr : List Event),
      gather env fuel st = some (RunResult.finished s tr) →
      st.last_timestamp ≤ s.store.last_timestamp ∧
      (s.gathered_log_count = 0 → s.store.last_timestamp = st.last_timestamp) := by
  intro env fuel st s tr h
  obtain ⟨s2, tr2, hinv, hs, htr, hr, hv, suf, hsuf⟩ :=
    gather_finished_master env fuel st s tr h
  subst hs
  constructor
  · exact hinv.w0_le
  · intro hg0
    exact hinv.no_gather_fixed hg0

/-- Environment for the C7 counterexample: the first fetch returns no
records but asserts more data, the second fetch ends the run; the budget
is huge, so two loop iterations occur. -/
def empty_then_stop_env : Env :=
  { base_env with
    cycles := fun k =>
      if k = 0 then { fetch := FetchResult.ok [] true, deliver_ok := true, duration := 0 }
      else base_cycle,
    sleep_seconds := 3,
    remaining_ms := fun _ => 1000000 }

/-- Claim C7 counterexample: a run performing two loop iterations (two fetch
events) with no sleep event at all, because the first fetch gathered no
records and the sleep guard checks the successful poll count, not the
iteration count: the loop does not sleep before every later iteration. -/
theorem sleep_before_second_iteration_counterexample :
    gather empty_then_stop_env 5 { status := Status.idle, last_timestamp := 0 } =
      some (RunResult.finished
        { store := { status := Status.succeeded, last_timestamp := 0 },
          gathered_log_count := 0, more_to_poll := false, poll_count := 0,
          last_timestamp := 0, start_last_timestamp := 0 }
        [Event.marked_running, Event.fetched 0, Event.fetched 1,
         Event.marked_success, Event.final_persisted 0]) ∧
    count_fetched [Event.marked_running, Event.fetched 0, Event.fetched 1,
      Event.marked_success, Event.final_persisted 0] = 2 ∧
    count_slept [Event.marked_running, Event.fetched 0, Event.fetched 1,
      Event.marked_success, Event.final_persisted 0] = 0 := by
  refine ⟨?_, by decide, by decide⟩
  norm_num [gather, loop, gather_one, do_gather, init_run, init_state, validate_auth,
    auth_key_diff, started_state, final_run, sleep_events, new_last_timestamp,
    POLL_BUFFER_MULTIPLIER, base_env, base_cycle, empty_then_stop_env,
    Finset.empty_sdiff, idle_ne_running]

/-- Claim C7 amended: the throttle sleep is never performed before the first
iteration; before a later iteration the loop sleeps for the adapter
interval exactly when some earlier cycle successfully gathered and
persisted records (the poll count is positive). Consequently every sleep
event in a run trace happens after at least one persist event; iterations
that follow only empty fetches do not sleep. -/
theorem throttle_sleep_semantics :
    (∀ (env : Env) (s : AppState), s.poll_count = 0 → sleep_events env s = []) ∧
    (∀ (env : Env) (s : AppState), s.poll_count ≠ 0 →
        sleep_events env s = [Event.slept env.sleep_seconds]) ∧
    (∀ (env : Env) (fuel : ℕ) (st : Store) (r : RunResult),
        gather env fuel st = some r →
        slept_only_after_persist r.trace = true) := by
  refine ⟨?_, ?_, ?_⟩
  · intro env s hp
    simp [sleep_events, hp]
  · intro env s hp
    simp [sleep_events, hp]
  · intro env fuel st r h
    cases r with
    | not_started st2 => rfl
    | config_error e st2 => rfl
    | finished s tr =>
      obtain ⟨s2, tr2, hinv, hs, htr, hr, hv, suf, hsuf⟩ :=
        gather_finished_master env fuel st s tr h
      subst htr
      show slept_only_after_persist (tr2 ++ (final_run s2).2) = true
      rw [slept_only_after_persist, slept_after_persist_from_append]
      have h1 : slept_after_persist_from 0 tr2 = true := hinv.slept_ok
      have h2 : slept_after_persist_from (0 + count_persisted tr2)
          (final_run s2).2 = true := rfl
      rw [h1, h2]
      rfl
    | raised_error s tr =>
      obtain ⟨hri, _, _, _⟩ := gather_raised_master env fuel st s tr h
      exact hri.slept_ok

end StreamAlert

namespace StreamAlert

/-- Decidable equality for Except results, used to evaluate concrete
validation and cycle outcomes. -/
instance {e a : Type} [DecidableEq e] [DecidableEq a] : DecidableEq (Except e a) :=
  fun x y =>
    match x, y with
    | Except.error u, Except.error v =>
      if h : u = v then isTrue (by rw [h]) else isFalse (fun hc => h (by cases hc; rfl))
    | Except.error u, Except.ok v => isFalse (fun hc => by cases hc)
    | Except.ok u, Except.error v => isFalse (fun hc => by cases hc)
    | Except.ok u, Except.ok v =>
      if h : u = v then isTrue (by rw [h]) else isFalse (fun hc => h (by cases hc; rfl))

/-- Claim C8: the continuation flag is consumed on every loop-continuation check:
if the cycle left the flag unset the loop ends right there even when the
budget admits more work; if the flag was re-asserted and the budget admits
it, the next iteration starts with the flag reset to false; and the flag
value after a cycle is exactly what that cycle's fetch reported. -/
theorem more_to_poll_consumed :
    (∀ (env : Env) (fuel k : ℕ) (s : AppState) (tr : List Event)
        (s1 : AppState) (evs : List Event) (cost : ℚ),
        gather_one env k s = Except.ok (s1, evs, cost) →
        s1.more_to_poll = false →
        loop env (fuel + 1) k s tr = some (LoopResult.done s1 (tr ++ evs))) ∧
    (∀ (env : Env) (fuel k : ℕ) (s : AppState) (tr : List Event)
        (s1 : AppState) (evs : List Event) (cost : ℚ),
        gather_one env k s = Except.ok (s1, evs, cost) →
        cost + env.sleep_seconds < env.remaining_ms k / 1000 →
        s1.more_to_poll = true →
        loop env (fuel + 1) k s tr =
          loop env fuel (k + 1) { s1 with more_to_poll := false } (tr ++ evs)) ∧
    (∀ (env : Env) (k : ℕ) (s s1 : AppState) (evs : List Event) (cost : ℚ)
        (records : List Int) (more : Bool),
        gather_one env k s = Except.ok (s1, evs, cost) →
        (env.cycles k).fetch = FetchResult.ok records more →
        s1.more_to_poll = more) := by
  refine ⟨?_, ?_, ?_⟩
  · intro env fuel k s tr s1 evs cost hg hm
    by_cases hc : cost + env.sleep_seconds < env.remaining_ms k / 1000
    · simp [loop, hg, hc, hm]
    · simp [loop, hg, hc]
  · intro env fuel k s tr s1 evs cost hg hc hm
    simp [loop, hg, hc, hm]
  · intro env k s s1 evs cost records more hg hf
    exact gather_one_more_eq env k s s1 evs cost records more hg hf

/-- Environment used for concrete credential validation scenarios: only
the auth key sets matter to `validate_auth`. -/
def auth_env (req sup : Finset String) : Env :=
  { base_env with required_auth_keys := req, auth_keys := sup }

/-- Claim C9: credential validation computes the set difference of required keys
minus supplied keys and succeeds silently iff it is empty; the raised
error names exactly the missing keys (all of them); supplied keys beyond
the required set never cause failure; concretely, required api_key and
subdomain with supplied api_key fails naming exactly subdomain, while an
extra supplied key changes nothing. -/
theorem credential_validation_key_diff :
    (∀ (env : Env), env.config_nonempty = true → env.has_auth = true →
        (validate_auth env = Except.ok () ↔
          auth_key_diff env.required_auth_keys env.auth_keys = ∅)) ∧
    (∀ (env : Env) (keys : Finset String),
        validate_auth env = Except.error (AuthError.missing_keys keys) →
        ∀ k, k ∈ keys ↔ (k ∈ env.required_auth_keys ∧ k ∉ env.auth_keys)) ∧
    (∀ required supplied : Finset String, required ⊆ supplied →
        auth_key_diff required supplied = ∅) ∧
    validate_auth (auth_env {"api_key", "subdomain"} {"api_key"}) =
      Except.error (AuthError.missing_keys {"subdomain"}) ∧
    validate_auth (auth_env {"api_key", "subdomain"} {"api_key", "subdomain", "extra"}) =
      Except.ok () := by
  refine ⟨?_, ?_, ?_, by decide, by decide⟩
  · intro env h1 h2
    rw [validate_auth]
    simp only [h1, h2]
    by_cases h3 : auth_key_diff env.required_auth_keys env.auth_keys = ∅ <;> simp [h3]
  · intro env keys h k
    by_cases h1 : env.config_nonempty = false
    · simp [validate_auth, h1] at h
    · by_cases h2 : env.has_auth = false
      · simp [validate_auth, h1, h2] at h
      · by_cases h3 : auth_key_diff env.required_auth_keys env.auth_keys = ∅
        · simp [validate_auth, h1, h2, h3] at h
        · simp [validate_auth, h1, h2, h3] at h
          subst h
          simp [auth_key_diff, Finset.mem_sdiff]
  · intro required supplied hsub
    exact Finset.sdiff_eq_empty_iff_subset.mpr hsub

/-- Environment for the C10 witness scenario: the remaining budget is
already zero, yet the first cycle fetches, delivers and persists. -/
def zero_budget_env : Env :=
  { base_env with
    cycles := fun _ =>
      { fetch := FetchResult.ok [10, 20] true, deliver_ok := true, duration := 1 } }

/-- Claim C10: whenever initialize() succeeds, the first gather cycle is executed
before any admission-control comparison: every completed run fetched at
least once regardless of the reported remaining time, and when the first
cycle returns records that are delivered, the run trace also shows a
delivery and a watermark persist. -/
theorem first_cycle_before_admission_check :
    (∀ (env : Env) (fuel : ℕ) (st : Store) (r : RunResult),
        st.status ≠ Status.running → validate_auth env = Except.ok () →
        gather env (fuel + 1) st = some r →
        1 ≤ count_fetched r.trace) ∧
    (∀ (env : Env) (fuel : ℕ) (st : Store) (r : RunResult)
        (records : List Int) (more : Bool),
        st.status ≠ Status.running → validate_auth env = Except.ok () →
        (env.cycles 0).fetch = FetchResult.ok records more → records ≠ [] →
        (env.cycles 0).deliver_ok = true →
        gather env (fuel + 1) st = some r →
        1 ≤ count_delivered r.trace ∧ 1 ≤ count_persisted r.trace) := by
  constructor
  · intro env fuel st r hr hv h
    obtain ⟨res, rest, hl, htr⟩ := gather_trace_decomp env (fuel + 1) st r hr hv h
    rcases loop_first_cycle env fuel 0 _ _ res hl with
      ⟨s1, evs, cost, suf, hg, hres⟩ | ⟨s1, evs, hg, hres⟩
    · obtain ⟨_, _, _, _, _, _, _, _, _, _, _, _, hfetch, _⟩ :=
        gather_one_ok_facts env 0 _ s1 evs cost hg
      rw [htr, hres]
      simp only [count_fetched, List.countP_append] at hfetch ⊢
      omega
    · obtain ⟨_, _, _, _, _, hfetch, _⟩ := gather_one_error_facts env 0 _ s1 evs hg
      rw [htr, hres]
      simp only [count_fetched, List.countP_append] at hfetch ⊢
      omega
  · intro env fuel st r records more hr hv hf0 hne hd h
    have hneb : ¬ records.isEmpty = true := fun hof => hne (List.isEmpty_iff.mp hof)
    obtain ⟨res, rest, hl, htr⟩ := gather_trace_decomp env (fuel + 1) st r hr hv h
    rcases loop_first_cycle env fuel 0 _ _ res hl with
      ⟨s1, evs, cost, suf, hg, hres⟩ | ⟨s1, evs, hg, hres⟩
    · obtain ⟨hdel, hper⟩ :=
        gather_one_delivered_counts env 0 _ s1 evs cost records more hg hf0 hneb hd
      rw [htr, hres]
      constructor
      · simp only [count_delivered, List.countP_append] at hdel ⊢
        omega
      · simp only [count_persisted, List.countP_append] at hper ⊢
        omega
    · exact absurd hg
        (fun hc => gather_one_no_error_of_deliver env 0 _ records more (s1, evs) hf0 hneb hd hc)

end StreamAlert

namespace StreamAlert

/-- Environment whose first cycle fetches one record whose delivery the
sink reports as failed. -/
def failing_delivery_env : Env :=
  { base_env with
    cycles := fun _ => { fetch := FetchResult.ok [10] true, deliver_ok := false, duration := 0 } }

/-- State reached right after the failed-delivery cycle. -/
def after_failed_delivery : AppState :=
  { store := { status := Status.running, last_timestamp := 10 },
    gathered_log_count := 1, more_to_poll := true, poll_count := 1,
    last_timestamp := 10, start_last_timestamp := 3 }

/-- Final state of the failed-delivery run. -/
def failing_delivery_state : AppState :=
  { store := { status := Status.succeeded, last_timestamp := 10 },
    gathered_log_count := 1, more_to_poll := true, poll_count := 1,
    last_timestamp := 10, start_last_timestamp := 3 }

/-- Trace of the failed-delivery run. -/
def failing_delivery_trace : List Event :=
  [Event.marked_running, Event.fetched 0, Event.deliver_failed 1,
   Event.persisted 10, Event.marked_success, Event.final_persisted 10]

/-- Claim C1 counterexample: with the sink reporting delivery failure
(per the spec a boolean, non-fatal signal absorbed by the core), the run
still persists the watermark of the failed batch: starting from
watermark 3, the cycle whose batch was never delivered ends with the
persisted watermark advanced to 10 — the source persists without
inspecting the result of `send_logs`, refuting the claim that a failed
delivery leaves the persisted watermark unchanged. -/
theorem delivery_failure_advances_watermark_counterexample :
    gather failing_delivery_env 3 { status := Status.idle, last_timestamp := 3 } =
      some (RunResult.finished failing_delivery_state failing_delivery_trace) ∧
    count_delivered failing_delivery_trace = 0 ∧
    count_deliver_failed failing_delivery_trace = 1 ∧
    failing_delivery_state.store.last_timestamp = 10 ∧
    (10 : Int) ≠ 3 := by
  refine ⟨?_, by decide, by decide, by decide, by decide⟩
  norm_num [gather, loop, gather_one, do_gather, init_run, init_state, validate_auth,
    auth_key_diff, started_state, final_run, sleep_events, new_last_timestamp,
    POLL_BUFFER_MULTIPLIER, base_env, base_cycle, failing_delivery_env,
    Finset.empty_sdiff, idle_ne_running, List.foldl, max_def,
    failing_delivery_state, failing_delivery_trace]

theorem watermark_persisted_after_delivery_attempt_witness :
    List.Chain' persist_ok failing_delivery_trace ∧
    after_failed_delivery.store.last_timestamp = new_last_timestamp 3 [10] ∧
    failing_delivery_state.store.last_timestamp =
      last_persisted 3 failing_delivery_trace := by
  have hrun : gather failing_delivery_env 3 { status := Status.idle, last_timestamp := 3 } =
      some (RunResult.finished failing_delivery_state failing_delivery_trace) := by
    norm_num [gather, loop, gather_one, do_gather, init_run, init_state, validate_auth,
      auth_key_diff, started_state, final_run, sleep_events, new_last_timestamp,
      POLL_BUFFER_MULTIPLIER, base_env, base_cycle, failing_delivery_env,
      Finset.empty_sdiff, idle_ne_running, List.foldl, max_def,
      failing_delivery_state, failing_delivery_trace]
  have hone : gather_one failing_delivery_env 0
      (started_state { status := Status.idle, last_timestamp := 3 }) =
      Except.ok (after_failed_delivery,
        [Event.fetched 0, Event.deliver_failed 1, Event.persisted 10],
        (failing_delivery_env.cycles 0).duration * POLL_BUFFER_MULTIPLIER) := by
    rfl
  obtain ⟨p1, p2, p3, p4⟩ := watermark_persisted_after_delivery_attempt
  refine ⟨(p1 failing_delivery_env 3 _ _ hrun).1, ?_,
    p4 failing_delivery_env 3 _ _ hrun⟩
  exact ((p3 failing_delivery_env 0 _ _ _ _ [10] true hone rfl).2 (by decide)).1

theorem running_guard_no_work_witness :
    gather base_env 3 { status := Status.running, last_timestamp := 5 } =
      some (RunResult.not_started { status := Status.running, last_timestamp := 5 }) ∧
    count_fetched (RunResult.not_started
      { status := Status.running, last_timestamp := 5 }).trace = 0 :=
  ⟨(running_guard_no_work base_env 3 _ rfl).1,
   (running_guard_no_work base_env 3 _ rfl).2.2.2.1⟩

/-- Environment realising the spec scenario for the admission estimator:
measured duration 0.01, throttle interval 5, remaining budget 5 seconds. -/
def estimator_env : Env :=
  { base_env with
    cycles := fun _ => { fetch := FetchResult.ok [7] true, deliver_ok := true, duration := 1 / 100 },
    sleep_seconds := 5, remaining_ms := fun _ => 5000 }

def estimator_state : AppState :=
  { store := { status := Status.running, last_timestamp := 7 },
    gathered_log_count := 1, more_to_poll := true, poll_count := 1,
    last_timestamp := 7, start_last_timestamp := 0 }

def estimator_evs : List Event :=
  [Event.fetched 0, Event.delivered 1, Event.persisted 7]

theorem admission_control_estimator_witness :
    spec_projected_cost (1 / 100) POLL_BUFFER_MULTIPLIER 5 = 5012 / 1000 ∧
    loop estimator_env 4 0 (started_state { status := Status.idle, last_timestamp := 0 }) [] =
      some (LoopResult.done estimator_state ([] ++ estimator_evs)) := by
  obtain ⟨m12, hcost, h5012, hstop⟩ := admission_control_estimator
  have hg : gather_one estimator_env 0
      (started_state { status := Status.idle, last_timestamp := 0 }) =
      Except.ok (estimator_state, estimator_evs,
        (estimator_env.cycles 0).duration * POLL_BUFFER_MULTIPLIER) := by
    rfl
  have hns : ¬(spec_projected_cost (estimator_env.cycles 0).duration POLL_BUFFER_MULTIPLIER
      estimator_env.sleep_seconds < estimator_env.remaining_ms 0 / 1000) := by
    norm_num [spec_projected_cost, POLL_BUFFER_MULTIPLIER, estimator_env, base_env]
  exact ⟨h5012, hstop estimator_env 3 0 _ _ [] _ _ hg hns⟩

/-- Environment delivering two records in one cycle, then out of budget. -/
def one_shot_env : Env :=
  { base_env with
    cycles := fun _ => { fetch := FetchResult.ok [10, 20] false, deliver_ok := true, duration := 0 } }

def one_shot_state : AppState :=
  { store := { status := Status.succeeded, last_timestamp := 20 },
    gathered_log_count := 2, more_to_poll := false, poll_count := 1,
    last_timestamp := 20, start_last_timestamp := 3 }

def one_shot_trace : List Event :=
  [Event.marked_running, Event.fetched 0, Event.delivered 2, Event.persisted 20,
   Event.marked_success, Event.final_persisted 20]

theorem finalize_semantics_witness :
    one_shot_state.store.status = Status.succeeded ∧
    count_marked_success one_shot_trace = 1 := by
  have hrun : gather one_shot_env 3 { status := Status.idle, last_timestamp := 3 } =
      some (RunResult.finished one_shot_state one_shot_trace) := by
    norm_num [gather, loop, gather_one, do_gather, init_run, init_state, validate_auth,
      auth_key_diff, started_state, final_run, sleep_events, new_last_timestamp,
      POLL_BUFFER_MULTIPLIER, base_env, base_cycle, one_shot_env,
      Finset.empty_sdiff, idle_ne_running, List.foldl, max_def,
      one_shot_state, one_shot_trace]
  obtain ⟨hfin, _, _⟩ := finalize_semantics
  obtain ⟨ha, hb, hc⟩ := hfin one_shot_env 3 _ _ _ hrun
  exact ⟨ha, hc⟩

theorem config_error_propagation_witness :
    gather missing_key_env 2 { status := Status.idle, last_timestamp := 9 } =
      some (RunResult.config_error (AuthError.missing_keys {"api_key"})
        { status := Status.idle, last_timestamp := 9 }) := by
  have hv : validate_auth missing_key_env =
      Except.error (AuthError.missing_keys {"api_key"}) := by decide
  exact (config_error_propagation missing_key_env 2 _ _ (by decide) hv).1

def no_record_state : AppState :=
  { store := { status := Status.succeeded, last_timestamp := 5 },
    gathered_log_count := 0, more_to_poll := false, poll_count := 0,
    last_timestamp := 5, start_last_timestamp := 5 }

def no_record_trace : List Event :=
  [Event.marked_running, Event.fetched 0, Event.marked_success, Event.final_persisted 5]

theorem watermark_monotone_on_success_witness :
    (3 : Int) ≤ one_shot_state.store.last_timestamp ∧
    no_record_state.store.last_timestamp = 5 := by
  have hrun1 : gather one_shot_env 3 { status := Status.idle, last_timestamp := 3 } =
      some (RunResult.finished one_shot_state one_shot_trace) := by
    norm_num [gather, loop, gather_one, do_gather, init_run, init_state, validate_auth,
      auth_key_diff, started_state, final_run, sleep_events, new_last_timestamp,
      POLL_BUFFER_MULTIPLIER, base_env, base_cycle, one_shot_env,
      Finset.empty_sdiff, idle_ne_running, List.foldl, max_def,
      one_shot_state, one_shot_trace]
  have hrun2 : gather base_env 3 { status := Status.idle, last_timestamp := 5 } =
      some (RunResult.finished no_record_state no_record_trace) := by
    norm_num [gather, loop, gather_one, do_gather, init_run, init_state, validate_auth,
      auth_key_diff, started_state, final_run, sleep_events, new_last_timestamp,
      POLL_BUFFER_MULTIPLIER, base_env, base_cycle,
      Finset.empty_sdiff, idle_ne_running, no_record_state, no_record_trace]
  exact ⟨(watermark_monotone_on_success one_shot_env 3 _ _ _ hrun1).1,
    (watermark_monotone_on_success base_env 3 _ _ _ hrun2).2 rfl⟩

/-- Environment with a successful first poll and an empty second poll,
so the second iteration performs a throttle sleep. -/
def two_cycle_env : Env :=
  { base_env with
    cycles := fun k =>
      if k = 0 then { fetch := FetchResult.ok [10] true, deliver_ok := true, duration := 0 }
      else base_cycle,
    sleep_seconds := 2, remaining_ms := fun _ => 10000 }

def after_first_poll : AppState :=
  { store := { status := Status.running, last_timestamp := 10 },
    gathered_log_count := 1, more_to_poll := true, poll_count := 1,
    last_timestamp := 10, start_last_timestamp := 0 }

def two_cycle_state : AppState :=
  { store := { status := Status.succeeded, last_timestamp := 10 },
    gathered_log_count := 1, more_to_poll := false, poll_count := 1,
    last_timestamp := 10, start_last_timestamp := 0 }

def two_cycle_trace : List Event :=
  [Event.marked_running, Event.fetched 0, Event.delivered 1, Event.persisted 10,
   Event.slept 2, Event.fetched 1, Event.marked_success, Event.final_persisted 10]

theorem throttle_sleep_semantics_witness :
    sleep_events base_env (started_state { status := Status.idle, last_timestamp := 0 }) = [] ∧
    sleep_events two_cycle_env after_first_poll = [Event.slept 2] ∧
    slept_only_after_persist two_cycle_trace = true := by
  have hrun : gather two_cycle_env 5 { status := Status.idle, last_timestamp := 0 } =
      some (RunResult.finished two_cycle_state two_cycle_trace) := by
    norm_num [gather, loop, gather_one, do_gather, init_run, init_state, validate_auth,
      auth_key_diff, started_state, final_run, sleep_events, new_last_timestamp,
      POLL_BUFFER_MULTIPLIER, base_env, base_cycle, two_cycle_env,
      Finset.empty_sdiff, idle_ne_running, List.foldl, max_def,
      two_cycle_state, two_cycle_trace]
  obtain ⟨p1, p2, p3⟩ := throttle_sleep_semantics
  exact ⟨p1 base_env _ rfl, p2 two_cycle_env after_first_poll (by decide),
    p3 two_cycle_env 5 _ _ hrun⟩

theorem more_to_poll_consumed_witness :
    loop two_cycle_env 4 0 (started_state { status := Status.idle, last_timestamp := 0 }) [] =
      loop two_cycle_env 3 1
        { store := { status := Status.running, last_timestamp := 10 },
          gathered_log_count := 1, more_to_poll := false, poll_count := 1,
          last_timestamp := 10, start_last_timestamp := 0 }
        ([] ++ [Event.fetched 0, Event.delivered 1, Event.persisted 10]) ∧
    after_first_poll.more_to_poll = true := by
  have hg0 : gather_one two_cycle_env 0
      (started_state { status := Status.idle, last_timestamp := 0 }) =
      Except.ok (after_first_poll, [Event.fetched 0, Event.delivered 1, Event.persisted 10],
        (two_cycle_env.cycles 0).duration * POLL_BUFFER_MULTIPLIER) := by
    rfl
  have hc : (two_cycle_env.cycles 0).duration * POLL_BUFFER_MULTIPLIER +
      two_cycle_env.sleep_seconds < two_cycle_env.remaining_ms 0 / 1000 := by
    norm_num [two_cycle_env, base_env, POLL_BUFFER_MULTIPLIER]
  obtain ⟨p1, p2, p3⟩ := more_to_poll_consumed
  exact ⟨p2 two_cycle_env 3 0 _ [] _ _ _ hg0 hc rfl,
    p3 two_cycle_env 0 _ _ _ _ [10] true hg0 rfl⟩

theorem credential_validation_key_diff_witness :
    validate_auth (auth_env {"api_key"} {"api_key"}) = Except.ok () ∧
    ("subdomain" ∈ ({"subdomain"} : Finset String) ↔
      ("subdomain" ∈ (auth_env {"api_key", "subdomain"} {"api_key"}).required_auth_keys ∧
       "subdomain" ∉ (auth_env {"api_key", "subdomain"} {"api_key"}).auth_keys)) ∧
    auth_key_diff {"api_key"} {"api_key", "extra"} = ∅ := by
  obtain ⟨p1, p2, p3, p4, p5⟩ := credential_validation_key_diff
  refine ⟨(p1 (auth_env {"api_key"} {"api_key"}) rfl rfl).mpr (by decide), ?_, ?_⟩
  · exact p2 (auth_env {"api_key", "subdomain"} {"api_key"}) {"subdomain"} (by decide)
      "subdomain"
  · exact p3 {"api_key"} {"api_key", "extra"} (by decide)

def zero_budget_state : AppState :=
  { store := { status := Status.succeeded, last_timestamp := 20 },
    gathered_log_count := 2, more_to_poll := true, poll_count := 1,
    last_timestamp := 20, start_last_timestamp := 3 }

def zero_budget_trace : List Event :=
  [Event.marked_running, Event.fetched 0, Event.delivered 2, Event.persisted 20,
   Event.marked_success, Event.final_persisted 20]

theorem first_cycle_before_admission_check_witness :
    1 ≤ count_fetched zero_budget_trace ∧
    1 ≤ count_delivered zero_budget_trace ∧
    1 ≤ count_persisted zero_budget_trace := by
  have hrun : gather zero_budget_env 3 { status := Status.idle, last_timestamp := 3 } =
      some (RunResult.finished zero_budget_state zero_budget_trace) := by
    norm_num [gather, loop, gather_one, do_gather, init_run, init_state, validate_auth,
      auth_key_diff, started_state, final_run, sleep_events, new_last_timestamp,
      POLL_BUFFER_MULTIPLIER, base_env, base_cycle, zero_budget_env,
      Finset.empty_sdiff, idle_ne_running, List.foldl, max_def,
      zero_budget_state, zero_budget_trace]
  obtain ⟨p1, p2⟩ := first_cycle_before_admission_check
  have h1 := p1 zero_budget_env 2 { status := Status.idle, last_timestamp := 3 } _
    (by decide) (by decide) hrun
  have h2 := p2 zero_budget_env 2 { status := Status.idle, last_timestamp := 3 } _
    [10, 20] true (by decide) (by decide) rfl (by decide) rfl hrun
  exact ⟨h1, h2.1, h2.2⟩

end StreamAlert
